import Mathlib

/-!
Shallow embedding of the Pomodian pomodoro timer (src/PomoTimer.ts and the
plugin main module src/unnamed/part_001).  Machine numbers from TypeScript
are modelled as Int; the 1-second interval callback is modelled as an
explicit step function; the callbacks onTick / onTimerComplete /
onStateChange are modelled as an emitted event list.
-/

set_option maxRecDepth 100000

namespace Pomodian

/-- The conflated enum from src/PomoTimer.ts lines 1-7: three modes plus the
two execution states Paused and Idle. -/
inductive TimerState where
  | Work
  | ShortBreak
  | LongBreak
  | Paused
  | Idle
  deriving DecidableEq

/-- Session interface from src/PomoTimer.ts lines 126-130.  The date field
(an ISO string produced from the wall clock) is an IO concern outside the
embedding and is omitted; type and duration are kept. -/
structure Session where
  type : TimerState
  duration : Int
  deriving DecidableEq

/-- Task interface from src/PomoTimer.ts lines 132-135. -/
structure Task where
  text : String
  completed : Bool
  deriving DecidableEq

/-- PomodoroSettings interface from src/PomoTimer.ts lines 137-149. -/
structure PomodoroSettings where
  workTime : Int
  shortBreakTime : Int
  longBreakTime : Int
  longBreakInterval : Int
  autoStartBreaks : Bool
  autoStartPomodoros : Bool
  showDesktopNotification : Bool
  playSound : Bool
  showInStatusBar : Bool
  sessions : List Session
  tasks : List Task
  deriving DecidableEq

/-- DEFAULT_SETTINGS from src/PomoTimer.ts lines 151-163. -/
def DEFAULT_SETTINGS : PomodoroSettings :=
  { workTime := 25
    shortBreakTime := 5
    longBreakTime := 15
    longBreakInterval := 4
    autoStartBreaks := false
    autoStartPomodoros := false
    showDesktopNotification := true
    playSound := true
    showInStatusBar := false
    sessions := []
    tasks := [] }

/-- Events emitted through the three constructor callbacks of PomoTimer.
A tick event carries the two arguments of onTick.  The onTimerComplete
callback takes no arguments in the source; the fields of the complete event
record the snapshot (state, remainingTime, totalTime) that the handler can
observe through the public getters at the moment the callback runs.  The
stateChange event carries the argument of onStateChange. -/
inductive Ev where
  | tick (remainingTime totalTime : Int)
  | complete (state : TimerState) (remainingTime totalTime : Int)
  | stateChange (state : TimerState)
  deriving DecidableEq

/-- The mutable fields of class PomoTimer, src/PomoTimer.ts lines 9-18.
The interval handle is modelled by whether an interval is registered. -/
structure PomoTimer where
  state : TimerState := TimerState.Idle
  prePauseState : TimerState := TimerState.Idle
  remainingTime : Int := 0
  totalTime : Int := 0
  intervalId : Bool := false
  settings : PomodoroSettings
  deriving DecidableEq

/-- A freshly constructed PomoTimer (constructor, lines 20-30). -/
def initTimer (s : PomodoroSettings) : PomoTimer := { settings := s }

/-- updateSettings, src/PomoTimer.ts lines 32-34: unconditionally replaces
the settings reference.  No other field is touched and nothing is emitted. -/
def updateSettings (e : PomoTimer) (s : PomodoroSettings) : PomoTimer × List Ev :=
  ({ e with settings := s }, [])

/-- The per-mode duration in minutes selected by the switch in start,
src/PomoTimer.ts lines 43-53.  The switch has no case for Paused or Idle
(both unreachable there because of the early return at line 37). -/
def durationFor (s : PomodoroSettings) : TimerState → Int
  | TimerState.Work => s.workTime
  | TimerState.ShortBreak => s.shortBreakTime
  | TimerState.LongBreak => s.longBreakTime
  | _ => 0

/-- start, src/PomoTimer.ts lines 36-74.  Early return for Idle and Paused
arguments; otherwise the state is set to the argument, the times are reset
from the settings only when remainingTime is 0, any previous interval is
cleared, a new interval is registered, and a final onTick is emitted.  The
interval callback body itself is the separate step function tick below. -/
def start (e : PomoTimer) (state : TimerState) : PomoTimer × List Ev :=
  if state = TimerState.Idle ∨ state = TimerState.Paused then (e, [])
  else
    let e1 := { e with state := state }
    let e2 :=
      if e1.remainingTime = 0 then
        let r := durationFor e1.settings e1.state * 60
        { e1 with remainingTime := r, totalTime := r }
      else e1
    let e3 := { e2 with intervalId := true }
    (e3, [Ev.tick e3.remainingTime e3.totalTime])

/-- stop, src/PomoTimer.ts lines 92-101: clears the interval, zeroes the
times, moves to Idle and emits onTick(0, 0). -/
def stop (e : PomoTimer) : PomoTimer × List Ev :=
  ({ e with intervalId := false, state := TimerState.Idle,
            remainingTime := 0, totalTime := 0 },
   [Ev.tick 0 0])

/-- reset, src/PomoTimer.ts lines 103-107: stop followed by one more
onTick(0, 0). -/
def reset (e : PomoTimer) : PomoTimer × List Ev :=
  let p := stop e
  (p.fst, p.snd ++ [Ev.tick 0 0])

/-- pause, src/PomoTimer.ts lines 76-84. -/
def pause (e : PomoTimer) : PomoTimer × List Ev :=
  if e.intervalId = true ∧ e.state ≠ TimerState.Idle ∧ e.state ≠ TimerState.Paused then
    let e1 := { e with intervalId := false, prePauseState := e.state,
                       state := TimerState.Paused }
    (e1, [Ev.tick e1.remainingTime e1.totalTime])
  else (e, [])

/-- resume, src/PomoTimer.ts lines 86-90. -/
def resume (e : PomoTimer) : PomoTimer × List Ev :=
  if e.state = TimerState.Paused then start e e.prePauseState else (e, [])

/-- isRunning, src/PomoTimer.ts lines 121-123. -/
def isRunning (e : PomoTimer) : Bool :=
  e.state ≠ TimerState.Idle ∧ e.state ≠ TimerState.Paused

/-- getState, src/PomoTimer.ts lines 109-111. -/
def getState (e : PomoTimer) : TimerState := e.state

/-- getRemainingTime, src/PomoTimer.ts lines 113-115. -/
def getRemainingTime (e : PomoTimer) : Int := e.remainingTime

/-- getTotalTime, src/PomoTimer.ts lines 117-119. -/
def getTotalTime (e : PomoTimer) : Int := e.totalTime

/-- One firing of the 1-second interval callback registered by start,
src/PomoTimer.ts lines 61-71: decrement, emit onTick, and when the new
remainingTime is at most 0 capture the completed state, call stop (which
emits onTick(0, 0)), then invoke onTimerComplete and
onStateChange(completedState).  The callback only fires while an interval
is registered. -/
def tick (e : PomoTimer) : PomoTimer × List Ev :=
  if e.intervalId = true then
    let e1 := { e with remainingTime := e.remainingTime - 1 }
    if e1.remainingTime ≤ 0 then
      let completedState := e1.state
      let p := stop e1
      (p.fst,
       Ev.tick e1.remainingTime e1.totalTime ::
         p.snd ++
           [Ev.complete p.fst.state p.fst.remainingTime p.fst.totalTime,
            Ev.stateChange completedState])
    else (e1, [Ev.tick e1.remainingTime e1.totalTime])
  else (e, [])

/-- Iterated interval firings, engine alone, discarding emitted events. -/
def iterTickE : Nat → PomoTimer → PomoTimer
  | 0, e => e
  | n + 1, e => iterTickE n (tick e).fst

/-!
Plugin orchestration state, from class PomodoroPlugin in
src/unnamed/part_001 lines 4-10.  In the source, plugin.settings and
timer.settings alias one object (the constructor at lines 22-27 passes
this.settings by reference), so the embedding keeps a single copy inside
the timer and the plugin functions read it from there.  The UI fields are
display-only and are omitted.
-/

/-- Orchestration fields of PomodoroPlugin (part_001 lines 7-10) plus the
wrapped PomoTimer. -/
structure PluginState where
  timer : PomoTimer
  currentMode : TimerState := TimerState.Work
  completedPomodoros : Int := 0
  nextMode : TimerState := TimerState.ShortBreak
  isSessionComplete : Bool := false
  deriving DecidableEq

/-- A freshly loaded plugin with the given settings. -/
def initPlugin (s : PomodoroSettings) : PluginState := { timer := initTimer s }

/-- advanceToNextMode, part_001 lines 347-375, pure part: increment the
work counter and compute nextMode.  The auto-start scheduling performed by
the same source function is a deferred callback modelled separately as
autoStartBody below. -/
def advanceToNextMode (p : PluginState) : PluginState :=
  if p.currentMode = TimerState.Work then
    let c := p.completedPomodoros + 1
    let nm :=
      if c % p.timer.settings.longBreakInterval = 0 then TimerState.LongBreak
      else TimerState.ShortBreak
    { p with completedPomodoros := c, nextMode := nm }
  else
    { p with nextMode := TimerState.Work }

/-- acknowledgeSessionComplete, part_001 lines 377-386: clear the flag and,
when the timer is not running, switch currentMode to nextMode.  The
trailing updateUI call is display-only. -/
def acknowledgeSessionComplete (p : PluginState) : PluginState :=
  let p1 := { p with isSessionComplete := false }
  if isRunning p1.timer = false then { p1 with currentMode := p1.nextMode }
  else p1

/-- Body of the deferred auto-start callback scheduled by advanceToNextMode
(part_001 lines 368-373): only if the session is still marked complete,
switch currentMode to nextMode and start the timer in that mode.  Note that
it does not clear isSessionComplete. -/
def autoStartBody (p : PluginState) : PluginState :=
  if p.isSessionComplete = true then
    let p1 := { p with currentMode := p.nextMode }
    { p1 with timer := (start p1.timer p1.currentMode).fst }
  else p

/-- The three acknowledgment paths that can act after a completion: the
manual acknowledgment (pie click or play/pause click while the session is
complete), the auto-start grace callback, and the 10-second auto-expiry
timeout scheduled in onTimerComplete (part_001 lines 294-296).  The expiry
timeout calls acknowledgeSessionComplete unconditionally. -/
inductive AckPath where
  | manual
  | autoStart
  | expiry
  deriving DecidableEq

/-- Firing one acknowledgment path. -/
def runPath : AckPath → PluginState → PluginState
  | AckPath.manual, p => acknowledgeSessionComplete p
  | AckPath.autoStart, p => autoStartBody p
  | AckPath.expiry, p => acknowledgeSessionComplete p

/-- Firing a sequence of acknowledgment paths, in order. -/
def runPaths (l : List AckPath) (p : PluginState) : PluginState :=
  l.foldl (fun q a => runPath a q) p

/-- Outcome of handleCycleModeClick, distinguishing the policy-violation
notice, the acknowledgment branch and an actual mode cycle. -/
inductive CycleOutcome where
  | rejected
  | acknowledged
  | cycled
  deriving DecidableEq

/-- handleCycleModeClick, part_001 lines 243-268: reject with a notice
unless the timer state is Idle and the timer is not running; acknowledge
instead of cycling while the session is complete; otherwise cycle
Work to ShortBreak to LongBreak to Work. -/
def handleCycleModeClick (p : PluginState) : PluginState × CycleOutcome :=
  if ¬ (getState p.timer = TimerState.Idle) ∨ isRunning p.timer = true then
    (p, CycleOutcome.rejected)
  else if p.isSessionComplete = true then
    (acknowledgeSessionComplete p, CycleOutcome.acknowledged)
  else
    let m :=
      match p.currentMode with
      | TimerState.Work => TimerState.ShortBreak
      | TimerState.ShortBreak => TimerState.LongBreak
      | TimerState.LongBreak => TimerState.Work
      | s => s
    ({ p with currentMode := m }, CycleOutcome.cycled)

/-- handleResetClick, part_001 lines 237-241: reset the timer and clear the
session-complete flag. -/
def handleResetClick (p : PluginState) : PluginState :=
  { p with timer := (reset p.timer).fst, isSessionComplete := false }

/-- The timer stop command issued through the plugin (part_002 uses it as
its reset handler; the engine part is stop above). -/
def pluginStop (p : PluginState) : PluginState :=
  { p with timer := (stop p.timer).fst }

/-- Starting the timer through the plugin in a given mode (the play path of
handlePauseResumeClick, part_001 line 233, which passes currentMode). -/
def pluginStart (p : PluginState) (m : TimerState) : PluginState :=
  { p with timer := (start p.timer m).fst }

/-- Modelled from the spec: the Session-recording step of the repository
current main module, which is absent from src/ (only its declarations, the
Session type and the sessions field of PomodoroSettings in PomoTimer.ts,
and its callers, getStats in PomoView.ts and part_000, are present).  Per
spec section 4.2, onEngineCompletion(mode, durationSeconds) appends one
Session record with the completed mode and the durationSeconds carried by
the completion notification, which per the spec is the totalSeconds fixed
at the start of the interval.  The record is appended to the session log
held in the settings object. -/
def recordSession (p : PluginState) (mode : TimerState) (duration : Int) :
    PluginState :=
  let s := p.timer.settings
  let s1 := { s with sessions := s.sessions ++ [{ type := mode, duration := duration }] }
  { p with timer := { p.timer with settings := s1 } }

/-- One firing of the interval callback as wired in the plugin: the engine
tick runs, and when it completes (PomoTimer.ts lines 65-70) the plugin
handler onTimerComplete (part_001 lines 270-297) runs: it sets
isSessionComplete, plays the notifications (display-only, omitted), calls
advanceToNextMode, and schedules the auto-start and auto-expiry callbacks
(modelled as the AckPath functions, fired separately).  The spec-modelled
session recording (recordSession above) consumes the completion with the
mode that finished and the totalSeconds fixed at interval start, which is
the totalTime still held by the engine just before its stop call. -/
def pluginTick (p : PluginState) : PluginState :=
  if p.timer.intervalId = true then
    let t1 := { p.timer with remainingTime := p.timer.remainingTime - 1 }
    if t1.remainingTime ≤ 0 then
      let completedState := t1.state
      let dur := t1.totalTime
      let p1 := { p with timer := (stop t1).fst }
      let p2 := advanceToNextMode { p1 with isSessionComplete := true }
      recordSession p2 completedState dur
    else { p with timer := t1 }
  else p

/-- Iterated interval firings at the plugin level. -/
def iterTick : Nat → PluginState → PluginState
  | 0, p => p
  | n + 1, p => iterTick n (pluginTick p)

/-- The three proper modes of the conflated enum. -/
def isMode (m : TimerState) : Prop :=
  m = TimerState.Work ∨ m = TimerState.ShortBreak ∨ m = TimerState.LongBreak

/-- Positive configured durations and interval, the validity condition the
spec places on Settings. -/
def posSettings (s : PomodoroSettings) : Prop :=
  0 < s.workTime ∧ 0 < s.shortBreakTime ∧ 0 < s.longBreakTime ∧
    0 < s.longBreakInterval

/-- Engine states reachable from a fresh PomoTimer through the public
commands, with every configuration (initial and updated) having positive
durations. -/
inductive Reachable : PomoTimer → Prop
  | ofInit (s : PomodoroSettings) (hs : posSettings s) : Reachable (initTimer s)
  | ofStart (e : PomoTimer) (m : TimerState) (h : Reachable e) :
      Reachable (start e m).fst
  | ofTick (e : PomoTimer) (h : Reachable e) : Reachable (tick e).fst
  | ofPause (e : PomoTimer) (h : Reachable e) : Reachable (pause e).fst
  | ofResume (e : PomoTimer) (h : Reachable e) : Reachable (resume e).fst
  | ofStop (e : PomoTimer) (h : Reachable e) : Reachable (stop e).fst
  | ofReset (e : PomoTimer) (h : Reachable e) : Reachable (reset e).fst
  | ofUpdate (e : PomoTimer) (s : PomodoroSettings) (hs : posSettings s)
      (h : Reachable e) : Reachable (updateSettings e s).fst

/-- The inductive invariant maintained by every engine command. -/
def Inv (e : PomoTimer) : Prop :=
  posSettings e.settings ∧
  0 ≤ e.remainingTime ∧ e.remainingTime ≤ e.totalTime ∧
  (e.state = TimerState.Idle →
     e.remainingTime = 0 ∧ e.totalTime = 0 ∧ e.intervalId = false) ∧
  (e.state = TimerState.Paused →
     0 < e.remainingTime ∧ e.intervalId = false ∧ isMode e.prePauseState) ∧
  (isMode e.state → 0 < e.remainingTime ∧ e.intervalId = true)

/-- Recognizer for completion events in an emitted trace. -/
def isCompleteEv : Ev → Bool
  | Ev.complete _ _ _ => true
  | _ => false

/-- The totalTime values observable at each completion notification of a
trace. -/
def completeTotals (l : List Ev) : List Int :=
  l.foldr (fun ev acc =>
    match ev with
    | Ev.complete _ _ t => t :: acc
    | _ => acc) []

/-- The engine states observable at each completion notification of a
trace. -/
def completeStates (l : List Ev) : List TimerState :=
  l.foldr (fun ev acc =>
    match ev with
    | Ev.complete s _ _ => s :: acc
    | _ => acc) []

/-- The nextMode values produced by n consecutive completed Work sessions:
each round is one Work completion (advanceToNextMode while currentMode is
Work), its acknowledgment, then the completion of the resulting break and
its acknowledgment, after which currentMode is Work again.  The recorded
entry is nextMode right after each Work completion. -/
def cadence : Nat → PluginState → List TimerState
  | 0, _ => []
  | n + 1, p =>
    let q := advanceToNextMode p
    q.nextMode ::
      cadence n
        (acknowledgeSessionComplete
          (advanceToNextMode (acknowledgeSessionComplete q)))

/-- Settings with a one-minute work interval and auto-started breaks, used
for the concrete executions below. -/
def settingsW1 : PomodoroSettings :=
  { DEFAULT_SETTINGS with workTime := 1, autoStartBreaks := true }

/-- Settings carrying a non-positive work duration. -/
def invalidSettings : PomodoroSettings := { DEFAULT_SETTINGS with workTime := 0 }

/-- A running Work engine one tick before completion (59 of 60 seconds
elapsed). -/
def engineBeforeCompletion : PomoTimer :=
  iterTickE 59 (start (initTimer settingsW1) TimerState.Work).fst

/-- A running Work engine mid-countdown (30 of 60 seconds remaining). -/
def engineMidRun : PomoTimer :=
  iterTickE 30 (start (initTimer settingsW1) TimerState.Work).fst

/-- The plugin right after a completed one-minute Work interval: the
session is complete and awaiting acknowledgment, nextMode is ShortBreak,
the timer is Idle. -/
def pluginAfterWork : PluginState :=
  iterTick 60 (pluginStart (initPlugin settingsW1) TimerState.Work)

/-- The plugin after the user resets within the acknowledgment window:
isSessionComplete is cleared, currentMode is still Work. -/
def pluginAfterReset : PluginState := handleResetClick pluginAfterWork

/-- The plugin after the auto-start grace callback fired: the ShortBreak
countdown is running while isSessionComplete is still true. -/
def pluginAutoStarted : PluginState := runPath AckPath.autoStart pluginAfterWork

/-- A reachable running engine used to instantiate the invariant theorem. -/
def engineWitness : PomoTimer :=
  (start (initTimer DEFAULT_SETTINGS) TimerState.Work).fst

/-- A plugin state whose currentMode is ShortBreak, used to instantiate the
after-break clause of the cadence theorem. -/
def pluginShortBreak : PluginState :=
  { initPlugin DEFAULT_SETTINGS with currentMode := TimerState.ShortBreak }

/-- C10: calling start with the argument Idle or Paused (the two non-mode
values of the conflated TimerState enum accepted by the public start
signature) is always a complete no-op: the early return at PomoTimer.ts
line 37 fires before any field is touched, so state, remainingTime,
totalTime and the interval handle are unchanged and no notification is
emitted, in every engine state. -/
theorem start_idle_paused_noop (e : PomoTimer) :
    start e TimerState.Idle = (e, []) ∧ start e TimerState.Paused = (e, []) := by
  constructor <;> simp [start]

/-- C9, amended: updateSettings performs no validation at all
(PomoTimer.ts lines 32-34).  It unconditionally replaces the settings with
the supplied ones, non-positive durations or intervals included, emitting
nothing; the countdown fields are untouched, so an invalid update only
affects future session-start computations.  The engine effective
configuration after the call equals the supplied settings, not the
previously held ones. -/
theorem update_settings_amended (e : PomoTimer) (s : PomodoroSettings) :
    updateSettings e s = ({ e with settings := s }, []) ∧
    (updateSettings e s).fst.settings = s ∧
    (updateSettings e s).fst.remainingTime = e.remainingTime ∧
    (updateSettings e s).fst.totalTime = e.totalTime ∧
    (updateSettings e s).fst.state = e.state := by
  exact ⟨rfl, rfl, rfl, rfl, rfl⟩

/-- C9 counterexample: supplying workTime = 0 (non-positive) to
updateSettings is not rejected and the previous last-known-valid settings
are not retained: the engine effective configuration after the call equals
the invalid settings and differs from the configuration before it. -/
theorem update_settings_counterexample :
    ¬ (0 < invalidSettings.workTime) ∧
    (updateSettings (initTimer DEFAULT_SETTINGS) invalidSettings).fst.settings
      = invalidSettings ∧
    (updateSettings (initTimer DEFAULT_SETTINGS) invalidSettings).fst.settings
      ≠ (initTimer DEFAULT_SETTINGS).settings := by
  decide

/-- C4, amended: calling start with a different mode while Running or
Paused with a nonzero remainingTime is not rejected: the engine state is
silently set to the requested mode and the countdown continues, with
remainingSeconds and totalSeconds unchanged (the reset branch at
PomoTimer.ts lines 42-55 is skipped); one tick notification is emitted.
Starting the same mode while Running is therefore a no-op apart from
re-registering the interval. -/
theorem start_while_active_amended (e : PomoTimer) (m : TimerState)
    (hm : isMode m) (hr : e.remainingTime ≠ 0) :
    start e m =
      ({ e with state := m, intervalId := true },
       [Ev.tick e.remainingTime e.totalTime]) := by
  rcases hm with rfl | rfl | rfl <;> simp [start, hr]

/-- C4 witness: starting ShortBreak while the engine is running Work with
30 seconds left silently overrides the mode and keeps the countdown. -/
theorem start_while_active_amended_witness :
    start engineMidRun TimerState.ShortBreak =
      ({ engineMidRun with state := TimerState.ShortBreak, intervalId := true },
       [Ev.tick engineMidRun.remainingTime engineMidRun.totalTime]) :=
  start_while_active_amended engineMidRun TimerState.ShortBreak
    (Or.inr (Or.inl rfl)) (by decide)

/-- C4 counterexample: with the engine Running in Work mode and 30 seconds
remaining, start(ShortBreak) is not rejected and does not leave the mode
unchanged: the state silently becomes ShortBreak while the countdown keeps
its 30 remaining seconds. -/
theorem start_override_counterexample :
    isRunning engineMidRun = true ∧
    engineMidRun.state = TimerState.Work ∧
    engineMidRun.remainingTime = 30 ∧
    (start engineMidRun TimerState.ShortBreak).fst.state = TimerState.ShortBreak ∧
    (start engineMidRun TimerState.ShortBreak).fst.state ≠ engineMidRun.state ∧
    (start engineMidRun TimerState.ShortBreak).fst.remainingTime = 30 := by
  decide

/-- C8: for all Settings and every proper mode m, calling start(m) with the
engine in the Idle state (where remainingTime is 0, compare the invariant
theorem) sets totalSeconds = remainingSeconds = the configured minutes for
m times 60 and moves to Running(m): the state becomes m and the countdown
interval is registered. -/
theorem start_from_idle_sets_duration (e : PomoTimer) (m : TimerState)
    (hm : isMode m) (hs : e.state = TimerState.Idle)
    (hr : e.remainingTime = 0) :
    (start e m).fst.remainingTime = durationFor e.settings m * 60 ∧
    (start e m).fst.totalTime = durationFor e.settings m * 60 ∧
    (start e m).fst.state = m ∧
    (start e m).fst.intervalId = true := by
  rcases hm with rfl | rfl | rfl <;> simp [start, hr, durationFor]

/-- C8 witness: from a fresh Idle engine with the default settings,
start(Work) yields remainingTime = totalTime = 25 times 60 and
Running(Work). -/
theorem start_from_idle_sets_duration_witness :
    (start (initTimer DEFAULT_SETTINGS) TimerState.Work).fst.remainingTime
        = durationFor (initTimer DEFAULT_SETTINGS).settings TimerState.Work * 60 ∧
    (start (initTimer DEFAULT_SETTINGS) TimerState.Work).fst.totalTime
        = durationFor (initTimer DEFAULT_SETTINGS).settings TimerState.Work * 60 ∧
    (start (initTimer DEFAULT_SETTINGS) TimerState.Work).fst.state = TimerState.Work ∧
    (start (initTimer DEFAULT_SETTINGS) TimerState.Work).fst.intervalId = true :=
  start_from_idle_sets_duration (initTimer DEFAULT_SETTINGS) TimerState.Work
    (Or.inl rfl) rfl rfl

/-- C2, amended: when remainingSeconds reaches 0 during a running
countdown, the engine stops the countdown but transitions to Idle first,
zeroing remainingTime and totalTime inside stop, and only then emits the
completion notification: the trace of the completing interval firing is
the decrement tick, the tick(0, 0) from stop, exactly one completion
callback, whose observable snapshot is already Idle with totalTime 0 (the
callback itself carries no arguments), and one state-change notification
which is what carries the mode that just finished.  The notification does
not carry the interval totalSeconds, which was already reset to 0. -/
theorem completion_sequence_amended (e : PomoTimer)
    (hI : e.intervalId = true) (hr : e.remainingTime ≤ 1) :
    tick e =
      ({ e with state := TimerState.Idle, remainingTime := 0, totalTime := 0,
                intervalId := false },
       [Ev.tick (e.remainingTime - 1) e.totalTime, Ev.tick 0 0,
        Ev.complete TimerState.Idle 0 0, Ev.stateChange e.state]) ∧
    ((tick e).snd.countP isCompleteEv) = 1 ∧
    completeTotals (tick e).snd = [0] ∧
    completeStates (tick e).snd = [TimerState.Idle] := by
  have hc : e.remainingTime - 1 ≤ 0 := by omega
  have h1 : tick e =
      ({ e with state := TimerState.Idle, remainingTime := 0, totalTime := 0,
                intervalId := false },
       [Ev.tick (e.remainingTime - 1) e.totalTime, Ev.tick 0 0,
        Ev.complete TimerState.Idle 0 0, Ev.stateChange e.state]) := by
    simp [tick, stop, hI, hc]
  refine ⟨h1, ?_, ?_, ?_⟩ <;>
    rw [h1] <;> simp [isCompleteEv, completeTotals, completeStates, List.countP,
      List.countP.go]

/-- C2 witness: a running Work engine at its final second (one-minute work
interval) produces exactly the amended completion sequence. -/
theorem completion_sequence_amended_witness :
    tick engineBeforeCompletion =
      ({ engineBeforeCompletion with
          state := TimerState.Idle, remainingTime := 0, totalTime := 0,
          intervalId := false },
       [Ev.tick (engineBeforeCompletion.remainingTime - 1)
          engineBeforeCompletion.totalTime,
        Ev.tick 0 0, Ev.complete TimerState.Idle 0 0,
        Ev.stateChange engineBeforeCompletion.state]) ∧
    ((tick engineBeforeCompletion).snd.countP isCompleteEv) = 1 ∧
    completeTotals (tick engineBeforeCompletion).snd = [0] ∧
    completeStates (tick engineBeforeCompletion).snd = [TimerState.Idle] :=
  completion_sequence_amended engineBeforeCompletion (by decide) (by decide)

/-- C2 counterexample: the one-minute Work interval has totalSeconds 60,
yet at completion the unique completion notification observable carries
totalTime 0, not 60, and its observable state is already Idle, so the
engine did not emit a completion notification carrying the interval
totalSeconds and did not transition to Idle only afterwards. -/
theorem completion_payload_counterexample :
    (start (initTimer settingsW1) TimerState.Work).fst.totalTime = 60 ∧
    engineBeforeCompletion.remainingTime = 1 ∧
    engineBeforeCompletion.intervalId = true ∧
    (tick engineBeforeCompletion).snd =
      [Ev.tick 0 60, Ev.tick 0 0, Ev.complete TimerState.Idle 0 0,
       Ev.stateChange TimerState.Work] ∧
    completeTotals (tick engineBeforeCompletion).snd = [0] ∧
    ¬ ((60 : Int) ∈ completeTotals (tick engineBeforeCompletion).snd) ∧
    completeStates (tick engineBeforeCompletion).snd = [TimerState.Idle] := by
  decide

/-- C6, amended: a cycleMode call made while a session is awaitingAck and
the engine is Idle performs acknowledgment (isSessionComplete is cleared
and currentMode becomes nextMode) instead of cycling; but the guard at
part_001 lines 245-248 runs first, so whenever the engine is not Idle (in
particular when the auto-start grace callback has already begun the next
interval while isSessionComplete is still true) the call is rejected with
the policy-violation notice and no acknowledgment happens. -/
theorem cycle_while_awaiting_ack_amended (p q : PluginState) :
    (p.timer.state = TimerState.Idle → p.isSessionComplete = true →
      handleCycleModeClick p =
        (acknowledgeSessionComplete p, CycleOutcome.acknowledged) ∧
      (handleCycleModeClick p).fst.currentMode = p.nextMode ∧
      (handleCycleModeClick p).fst.isSessionComplete = false) ∧
    (q.timer.state ≠ TimerState.Idle →
      handleCycleModeClick q = (q, CycleOutcome.rejected)) := by
  constructor
  · intro h1 h2
    have hrun : isRunning p.timer = false := by
      simp [isRunning, h1]
    refine ⟨?_, ?_, ?_⟩ <;>
      simp [handleCycleModeClick, getState, acknowledgeSessionComplete,
        h1, h2, hrun]
  · intro h
    simp [handleCycleModeClick, getState, h]

/-- C6 witness: with the engine Idle and a session awaiting
acknowledgment, cycleMode acknowledges (currentMode becomes nextMode,
namely ShortBreak) instead of cycling; and with a running engine the call
is rejected. -/
theorem cycle_while_awaiting_ack_amended_witness :
    (handleCycleModeClick pluginAfterWork =
        (acknowledgeSessionComplete pluginAfterWork, CycleOutcome.acknowledged) ∧
      (handleCycleModeClick pluginAfterWork).fst.currentMode
          = pluginAfterWork.nextMode ∧
      (handleCycleModeClick pluginAfterWork).fst.isSessionComplete = false) ∧
    handleCycleModeClick pluginAutoStarted =
      (pluginAutoStarted, CycleOutcome.rejected) :=
  ⟨(cycle_while_awaiting_ack_amended pluginAfterWork pluginAutoStarted).1
      (by decide) (by decide),
   (cycle_while_awaiting_ack_amended pluginAfterWork pluginAutoStarted).2
      (by decide)⟩

/-- C6 counterexample: after a one-minute Work interval completes with
autoStartBreaks enabled and the auto-start grace callback fires, the
session is still awaitingAck (isSessionComplete = true, the auto-start
path never clears it) while the ShortBreak countdown runs; a cycleMode
call in that state is a policy-violation rejection that changes nothing
and does not perform acknowledgment, contradicting the claim that every
cycleMode call made while awaitingAck acknowledges instead. -/
theorem cycle_during_autostart_counterexample :
    pluginAutoStarted.isSessionComplete = true ∧
    isRunning pluginAutoStarted.timer = true ∧
    (handleCycleModeClick pluginAutoStarted).snd = CycleOutcome.rejected ∧
    (handleCycleModeClick pluginAutoStarted).fst = pluginAutoStarted ∧
    (handleCycleModeClick pluginAutoStarted).fst.isSessionComplete = true := by
  decide

/-- One acknowledgment path firing never moves currentMode anywhere except
to nextMode, and never changes nextMode. -/
theorem runPath_mode (a : AckPath) (p : PluginState) :
    ((runPath a p).currentMode = p.currentMode ∨
      (runPath a p).currentMode = p.nextMode) ∧
    (runPath a p).nextMode = p.nextMode := by
  cases a <;>
    simp [runPath, acknowledgeSessionComplete, autoStartBody] <;>
    split <;> simp

/-- Any sequence of acknowledgment-path firings keeps currentMode in the
pair of the original currentMode and nextMode, and keeps nextMode fixed. -/
theorem runPaths_mode (l : List AckPath) (p : PluginState) :
    ((runPaths l p).currentMode = p.currentMode ∨
      (runPaths l p).currentMode = p.nextMode) ∧
    (runPaths l p).nextMode = p.nextMode := by
  induction l generalizing p with
  | nil => exact ⟨Or.inl rfl, rfl⟩
  | cons a l ih =>
    have hstep := runPath_mode a p
    have htail := ih (runPath a p)
    have hcons : runPaths (a :: l) p = runPaths l (runPath a p) := rfl
    rw [hcons]
    rcases htail.1 with h | h <;> rcases hstep.1 with h2 | h2 <;>
      simp_all [htail.2, hstep.2]

/-- C3, amended: after a completion, the manual-acknowledge and auto-start
paths only act while the session is awaitingAck (the auto-start body at
part_001 lines 368-373 is guarded by isSessionComplete, and the manual
handlers only reach acknowledgeSessionComplete when isSessionComplete is
set), and no sequence of the three acknowledgment paths ever moves
currentMode past nextMode, because the acknowledgment assignment is the
idempotent currentMode := nextMode; but the 10-second auto-expiry timeout
(part_001 lines 294-296) is NOT a no-op when the session is no longer
awaitingAck: it calls acknowledgeSessionComplete unconditionally, which
re-assigns currentMode := nextMode whenever the timer is not running. -/
theorem ack_paths_amended (p q : PluginState) (l : List AckPath) :
    (q.isSessionComplete = false → autoStartBody q = q) ∧
    ((runPaths l p).currentMode = p.currentMode ∨
      (runPaths l p).currentMode = p.nextMode) ∧
    (runPaths l p).nextMode = p.nextMode := by
  refine ⟨?_, (runPaths_mode l p).1, (runPaths_mode l p).2⟩
  intro h
  simp [autoStartBody, h]

/-- C3 witness: the auto-start body is a no-op after the flag is cleared
by a reset, and firing expiry then manual acknowledgment from the
awaiting-acknowledgment state leaves currentMode at nextMode, without
advancing twice. -/
theorem ack_paths_amended_witness :
    autoStartBody pluginAfterReset = pluginAfterReset ∧
    ((runPaths [AckPath.expiry, AckPath.manual] pluginAfterWork).currentMode
        = pluginAfterWork.currentMode ∨
      (runPaths [AckPath.expiry, AckPath.manual] pluginAfterWork).currentMode
        = pluginAfterWork.nextMode) ∧
    (runPaths [AckPath.expiry, AckPath.manual] pluginAfterWork).nextMode
      = pluginAfterWork.nextMode :=
  ⟨(ack_paths_amended pluginAfterWork pluginAfterReset
      [AckPath.expiry, AckPath.manual]).1 (by decide),
   (ack_paths_amended pluginAfterWork pluginAfterReset
      [AckPath.expiry, AckPath.manual]).2.1,
   (ack_paths_amended pluginAfterWork pluginAfterReset
      [AckPath.expiry, AckPath.manual]).2.2⟩

/-- C3 counterexample: complete a one-minute Work interval, then reset
within the acknowledgment window, so the session is no longer awaitingAck
and currentMode is still Work; when the 10-second auto-expiry timeout then
fires it is not a no-op: it re-performs acknowledgment and moves
currentMode to ShortBreak, contradicting the claim that each deferred path
is a no-op unless the session is still awaitingAck when it fires. -/
theorem expiry_unguarded_counterexample :
    pluginAfterReset.isSessionComplete = false ∧
    pluginAfterReset.currentMode = TimerState.Work ∧
    runPath AckPath.expiry pluginAfterReset ≠ pluginAfterReset ∧
    (runPath AckPath.expiry pluginAfterReset).currentMode
      = TimerState.ShortBreak := by
  decide

/-- C5: completedPomodoros increments by exactly one on each Work
completion and the break choice follows completedPomodoros modulo
longBreakInterval (part_001 lines 347-361); after a completed break,
nextMode is Work and the counter is unchanged; and with
longBreakInterval = 4 the nextMode values after Work completions 1
through 8 are ShortBreak, ShortBreak, ShortBreak, LongBreak, ShortBreak,
ShortBreak, ShortBreak, LongBreak. -/
theorem long_break_cadence (p q : PluginState) :
    (p.currentMode = TimerState.Work →
      (advanceToNextMode p).completedPomodoros = p.completedPomodoros + 1 ∧
      ((p.completedPomodoros + 1) % p.timer.settings.longBreakInterval = 0 →
        (advanceToNextMode p).nextMode = TimerState.LongBreak) ∧
      ((p.completedPomodoros + 1) % p.timer.settings.longBreakInterval ≠ 0 →
        (advanceToNextMode p).nextMode = TimerState.ShortBreak)) ∧
    ((q.currentMode = TimerState.ShortBreak ∨
        q.currentMode = TimerState.LongBreak) →
      (advanceToNextMode q).nextMode = TimerState.Work ∧
      (advanceToNextMode q).completedPomodoros = q.completedPomodoros) ∧
    cadence 8 (initPlugin DEFAULT_SETTINGS) =
      [TimerState.ShortBreak, TimerState.ShortBreak, TimerState.ShortBreak,
       TimerState.LongBreak, TimerState.ShortBreak, TimerState.ShortBreak,
       TimerState.ShortBreak, TimerState.LongBreak] := by
  refine ⟨?_, ?_, by decide⟩
  · intro h
    refine ⟨by simp [advanceToNextMode, h], ?_, ?_⟩ <;>
      intro h2 <;> simp [advanceToNextMode, h, h2]
  · rintro (h | h) <;> simp [advanceToNextMode, h]

/-- C5 witness: the first Work completion from the initial plugin state
increments the counter from 0 to 1 and selects ShortBreak (1 mod 4 is not
0), and a completed ShortBreak selects Work without touching the
counter. -/
theorem long_break_cadence_witness :
    (advanceToNextMode (initPlugin DEFAULT_SETTINGS)).completedPomodoros
        = (initPlugin DEFAULT_SETTINGS).completedPomodoros + 1 ∧
    (advanceToNextMode (initPlugin DEFAULT_SETTINGS)).nextMode
        = TimerState.ShortBreak ∧
    (advanceToNextMode pluginShortBreak).nextMode = TimerState.Work ∧
    (advanceToNextMode pluginShortBreak).completedPomodoros
        = pluginShortBreak.completedPomodoros :=
  ⟨((long_break_cadence (initPlugin DEFAULT_SETTINGS) pluginShortBreak).1
      rfl).1,
   ((long_break_cadence (initPlugin DEFAULT_SETTINGS) pluginShortBreak).1
      rfl).2.2 (by decide),
   ((long_break_cadence (initPlugin DEFAULT_SETTINGS) pluginShortBreak).2.1
      (Or.inl rfl)).1,
   ((long_break_cadence (initPlugin DEFAULT_SETTINGS) pluginShortBreak).2.1
      (Or.inl rfl)).2⟩

/-- A value of the conflated enum that is neither Idle nor Paused is one of
the three proper modes. -/
theorem isMode_of_not_idle_paused (m : TimerState)
    (h : ¬ (m = TimerState.Idle ∨ m = TimerState.Paused)) : isMode m := by
  cases m <;> simp_all [isMode]

/-- With positive settings, every proper mode has a positive configured
duration. -/
theorem durationFor_pos (s : PomodoroSettings) (m : TimerState)
    (hs : posSettings s) (hm : isMode m) : 0 < durationFor s m := by
  obtain ⟨h1, h2, h3, _⟩ := hs
  rcases hm with rfl | rfl | rfl <;> simpa [durationFor]

/-- Computation rule for start on a proper mode when the countdown was at
0: the times are reset from the settings. -/
theorem start_reset_eq (e : PomoTimer) (m : TimerState)
    (hm : ¬ (m = TimerState.Idle ∨ m = TimerState.Paused))
    (hr : e.remainingTime = 0) :
    start e m =
      ({ e with state := m,
                remainingTime := durationFor e.settings m * 60,
                totalTime := durationFor e.settings m * 60,
                intervalId := true },
       [Ev.tick (durationFor e.settings m * 60) (durationFor e.settings m * 60)]) := by
  simp [start, hm, hr]

/-- Computation rule for start on a proper mode when the countdown is
nonzero: only the state and the interval handle change. -/
theorem start_keep_eq (e : PomoTimer) (m : TimerState)
    (hm : ¬ (m = TimerState.Idle ∨ m = TimerState.Paused))
    (hr : e.remainingTime ≠ 0) :
    start e m =
      ({ e with state := m, intervalId := true },
       [Ev.tick e.remainingTime e.totalTime]) := by
  simp [start, hm, hr]

/-- Computation rule for the interval callback when it fires the
completion branch. -/
theorem tick_complete_eq (e : PomoTimer) (hI : e.intervalId = true)
    (hc : e.remainingTime - 1 ≤ 0) :
    tick e =
      ({ e with state := TimerState.Idle, remainingTime := 0, totalTime := 0,
                intervalId := false },
       [Ev.tick (e.remainingTime - 1) e.totalTime, Ev.tick 0 0,
        Ev.complete TimerState.Idle 0 0, Ev.stateChange e.state]) := by
  simp [tick, stop, hI, hc]

/-- Computation rule for the interval callback on an ordinary second. -/
theorem tick_dec_eq (e : PomoTimer) (hI : e.intervalId = true)
    (hc : ¬ (e.remainingTime - 1 ≤ 0)) :
    tick e =
      ({ e with remainingTime := e.remainingTime - 1 },
       [Ev.tick (e.remainingTime - 1) e.totalTime]) := by
  simp [tick, hI, hc]

/-- Computation rule for the interval callback with no interval
registered. -/
theorem tick_none_eq (e : PomoTimer) (hI : e.intervalId = false) :
    tick e = (e, []) := by
  simp [tick, hI]

/-- Computation rule for pause when its guard holds. -/
theorem pause_eq (e : PomoTimer)
    (hg : e.intervalId = true ∧ e.state ≠ TimerState.Idle ∧
      e.state ≠ TimerState.Paused) :
    pause e =
      ({ e with intervalId := false, prePauseState := e.state,
                state := TimerState.Paused },
       [Ev.tick e.remainingTime e.totalTime]) := by
  simp [pause, hg]

/-- Computation rule for pause when its guard fails. -/
theorem pause_noop_eq (e : PomoTimer)
    (hg : ¬ (e.intervalId = true ∧ e.state ≠ TimerState.Idle ∧
      e.state ≠ TimerState.Paused)) :
    pause e = (e, []) := by
  simp only [pause, if_neg hg]

/-- start preserves the engine invariant. -/
theorem inv_start (e : PomoTimer) (m : TimerState) (h : Inv e) :
    Inv (start e m).fst := by
  obtain ⟨hs, h0, hrt, hidle, hpaus, hmode⟩ := h
  by_cases hm : m = TimerState.Idle ∨ m = TimerState.Paused
  · simpa [start, hm] using ⟨hs, h0, hrt, hidle, hpaus, hmode⟩
  · have hmm : isMode m := isMode_of_not_idle_paused m hm
    have hm1 : m ≠ TimerState.Idle := by rcases hmm with rfl | rfl | rfl <;> simp
    have hm2 : m ≠ TimerState.Paused := by rcases hmm with rfl | rfl | rfl <;> simp
    by_cases hr : e.remainingTime = 0
    · have hd : 0 < durationFor e.settings m := durationFor_pos _ _ hs hmm
      rw [start_reset_eq e m hm hr]
      refine ⟨hs, ?_, le_refl _, fun hx => absurd hx hm1,
        fun hx => absurd hx hm2, fun _ => ⟨?_, rfl⟩⟩
      · show (0 : Int) ≤ durationFor e.settings m * 60
        omega
      · show (0 : Int) < durationFor e.settings m * 60
        omega
    · rw [start_keep_eq e m hm hr]
      exact ⟨hs, h0, hrt, fun hx => absurd hx hm1, fun hx => absurd hx hm2,
        fun _ => ⟨by show (0 : Int) < e.remainingTime; omega, rfl⟩⟩

/-- stop establishes the Idle invariant. -/
theorem inv_stop (e : PomoTimer) (h : Inv e) : Inv (stop e).fst := by
  obtain ⟨hs, _⟩ := h
  exact ⟨hs, le_refl _, le_refl _, fun _ => ⟨rfl, rfl, rfl⟩,
    fun hx => absurd hx (by simp [stop]),
    fun hx => absurd hx (by simp [stop, isMode])⟩

/-- reset establishes the Idle invariant. -/
theorem inv_reset (e : PomoTimer) (h : Inv e) : Inv (reset e).fst := by
  have h2 := inv_stop e h
  simpa [reset] using h2

/-- A reachable engine with a registered interval is running one of the
three proper modes. -/
theorem mode_of_interval (e : PomoTimer) (h : Inv e)
    (hI : e.intervalId = true) : isMode e.state := by
  obtain ⟨_, _, _, hidle, hpaus, _⟩ := h
  apply isMode_of_not_idle_paused
  rintro (hst | hst)
  · exact absurd (hidle hst).2.2 (by simp [hI])
  · exact absurd (hpaus hst).2.1 (by simp [hI])

/-- The interval callback preserves the engine invariant. -/
theorem inv_tick (e : PomoTimer) (h : Inv e) : Inv (tick e).fst := by
  obtain ⟨hs, h0, hrt, hidle, hpaus, hmode⟩ := h
  by_cases hI : e.intervalId = true
  · have hsm : isMode e.state :=
      mode_of_interval e ⟨hs, h0, hrt, hidle, hpaus, hmode⟩ hI
    have hr1 : 0 < e.remainingTime := (hmode hsm).1
    have hst1 : e.state ≠ TimerState.Idle := by
      rcases hsm with h2 | h2 | h2 <;> simp [h2]
    have hst2 : e.state ≠ TimerState.Paused := by
      rcases hsm with h2 | h2 | h2 <;> simp [h2]
    by_cases hc : e.remainingTime - 1 ≤ 0
    · rw [tick_complete_eq e hI hc]
      exact ⟨hs, le_refl _, le_refl _, fun _ => ⟨rfl, rfl, rfl⟩,
        fun hx => absurd hx (by simp),
        fun hx => absurd hx (by simp [isMode])⟩
    · rw [tick_dec_eq e hI hc]
      exact ⟨hs, by show (0:Int) ≤ e.remainingTime - 1; omega,
        by show e.remainingTime - 1 ≤ e.totalTime; omega,
        fun hx => absurd hx hst1, fun hx => absurd hx hst2,
        fun _ => ⟨by show (0:Int) < e.remainingTime - 1; omega, hI⟩⟩
  · have hI2 : e.intervalId = false := by
      cases hb : e.intervalId
      · rfl
      · exact absurd hb hI
    rw [tick_none_eq e hI2]
    exact ⟨hs, h0, hrt, hidle, hpaus, hmode⟩

/-- pause preserves the engine invariant. -/
theorem inv_pause (e : PomoTimer) (h : Inv e) : Inv (pause e).fst := by
  obtain ⟨hs, h0, hrt, hidle, hpaus, hmode⟩ := h
  by_cases hg : e.intervalId = true ∧ e.state ≠ TimerState.Idle ∧
      e.state ≠ TimerState.Paused
  · have hsm : isMode e.state := by
      apply isMode_of_not_idle_paused
      rintro (hst | hst)
      · exact hg.2.1 hst
      · exact hg.2.2 hst
    have hr1 : 0 < e.remainingTime := (hmode hsm).1
    rw [pause_eq e hg]
    exact ⟨hs, h0, hrt, fun hx => absurd hx (by simp),
      fun _ => ⟨hr1, rfl, hsm⟩,
      fun hx => absurd hx (by simp [isMode])⟩
  · rw [pause_noop_eq e hg]
    exact ⟨hs, h0, hrt, hidle, hpaus, hmode⟩

/-- resume preserves the engine invariant. -/
theorem inv_resume (e : PomoTimer) (h : Inv e) : Inv (resume e).fst := by
  by_cases hp : e.state = TimerState.Paused
  · simpa [resume, hp] using inv_start e e.prePauseState h
  · simpa [resume, hp] using h

/-- updateSettings with positive settings preserves the engine
invariant. -/
theorem inv_updateSettings (e : PomoTimer) (s : PomodoroSettings)
    (hs : posSettings s) (h : Inv e) : Inv (updateSettings e s).fst := by
  obtain ⟨_, h0, hrt, hidle, hpaus, hmode⟩ := h
  exact ⟨hs, h0, hrt, hidle, hpaus, hmode⟩

/-- Every reachable engine state satisfies the invariant. -/
theorem inv_reachable (e : PomoTimer) (h : Reachable e) : Inv e := by
  induction h with
  | ofInit s hs =>
      refine ⟨hs, le_refl _, le_refl _, ?_, ?_, ?_⟩ <;>
        simp [initTimer, isMode]
  | ofStart e m _ ih => exact inv_start e m ih
  | ofTick e _ ih => exact inv_tick e ih
  | ofPause e _ ih => exact inv_pause e ih
  | ofResume e _ ih => exact inv_resume e ih
  | ofStop e _ ih => exact inv_stop e ih
  | ofReset e _ ih => exact inv_reset e ih
  | ofUpdate e s hs _ ih => exact inv_updateSettings e s hs ih

/-- C7: over all reachable engine states under positive configured
durations, remainingTime never exceeds totalTime; both are 0 exactly when
the state is Idle; each interval firing strictly decreases remainingTime
while Running and is the identity while Paused (the interval is cleared);
a start call from any non-Idle state never changes remainingTime or
totalTime, so a countdown is only ever reset to equal totalTime by a fresh
start from remainingTime 0; and pause followed by resume preserves
remainingTime, never resetting it to totalTime. -/
theorem timer_invariants (e : PomoTimer) (m : TimerState)
    (h : Reachable e) :
    e.remainingTime ≤ e.totalTime ∧
    ((e.remainingTime = 0 ∧ e.totalTime = 0) ↔ e.state = TimerState.Idle) ∧
    (isRunning e = true → (tick e).fst.remainingTime < e.remainingTime) ∧
    (e.state = TimerState.Paused → tick e = (e, [])) ∧
    (e.state ≠ TimerState.Idle →
      (start e m).fst.remainingTime = e.remainingTime ∧
      (start e m).fst.totalTime = e.totalTime) ∧
    (resume (pause e).fst).fst.remainingTime = e.remainingTime := by
  obtain ⟨hs, h0, hrt, hidle, hpaus, hmode⟩ := inv_reachable e h
  refine ⟨hrt, ?_, ?_, ?_, ?_, ?_⟩
  · constructor
    · rintro ⟨hz, _⟩
      by_contra hsI
      have hor : e.state = TimerState.Paused ∨ isMode e.state := by
        cases hst : e.state <;> simp_all [isMode]
      rcases hor with hp | hm2
      · have := (hpaus hp).1
        omega
      · have := (hmode hm2).1
        omega
    · intro hsI
      exact ⟨(hidle hsI).1, (hidle hsI).2.1⟩
  · intro hrun
    have hx : e.state ≠ TimerState.Idle ∧ e.state ≠ TimerState.Paused := by
      simpa [isRunning] using hrun
    have hsm : isMode e.state := by
      apply isMode_of_not_idle_paused
      rintro (a | b)
      · exact hx.1 a
      · exact hx.2 b
    have hI : e.intervalId = true := (hmode hsm).2
    have hr1 : 0 < e.remainingTime := (hmode hsm).1
    by_cases hc : e.remainingTime - 1 ≤ 0
    · rw [tick_complete_eq e hI hc]
      show (0 : Int) < e.remainingTime
      omega
    · rw [tick_dec_eq e hI hc]
      show e.remainingTime - 1 < e.remainingTime
      omega
  · intro hp
    exact tick_none_eq e (hpaus hp).2.1
  · intro hsI
    have hr1 : 0 < e.remainingTime := by
      have hor : e.state = TimerState.Paused ∨ isMode e.state := by
        cases hst : e.state <;> simp_all [isMode]
      rcases hor with hp | hm2
      · exact (hpaus hp).1
      · exact (hmode hm2).1
    by_cases hm : m = TimerState.Idle ∨ m = TimerState.Paused
    · constructor <;> simp [start, hm]
    · rw [start_keep_eq e m hm (by omega)]
      exact ⟨rfl, rfl⟩
  · by_cases hg : e.intervalId = true ∧ e.state ≠ TimerState.Idle ∧
      e.state ≠ TimerState.Paused
    · have hsm : isMode e.state := by
        apply isMode_of_not_idle_paused
        rintro (a | b)
        · exact hg.2.1 a
        · exact hg.2.2 b
      have hr1 : 0 < e.remainingTime := (hmode hsm).1
      have hm2 : ¬ (e.state = TimerState.Idle ∨ e.state = TimerState.Paused) := by
        rintro (a | b)
        · exact hg.2.1 a
        · exact hg.2.2 b
      have hpf : (pause e).fst = ({ e with intervalId := false, prePauseState := e.state, state := TimerState.Paused } : PomoTimer) := by
        rw [pause_eq e hg]
      have hres : resume ({ e with intervalId := false, prePauseState := e.state, state := TimerState.Paused } : PomoTimer) = start ({ e with intervalId := false, prePauseState := e.state, state := TimerState.Paused } : PomoTimer) e.state := by
        simp [resume]
      rw [hpf, hres,
        start_keep_eq ({ e with intervalId := false, prePauseState := e.state, state := TimerState.Paused } : PomoTimer) e.state hm2
          (by show e.remainingTime ≠ 0; omega)]
    · rw [pause_noop_eq e hg]
      by_cases hp : e.state = TimerState.Paused
      · have hsm : isMode e.prePauseState := (hpaus hp).2.2
        have hr1 : 0 < e.remainingTime := (hpaus hp).1
        have hm2 : ¬ (e.prePauseState = TimerState.Idle ∨
            e.prePauseState = TimerState.Paused) := by
          rcases hsm with h2 | h2 | h2 <;> simp [h2]
        have hres : resume e = start e e.prePauseState := by
          simp [resume, hp]
        rw [hres, start_keep_eq e _ hm2 (by omega)]
      · have hres : resume e = (e, []) := by
          simp [resume, hp]
        rw [hres]

/-- C7 witness: the invariants instantiated at the reachable engine that
just started a Work countdown with the default settings. -/
theorem timer_invariants_witness :
    engineWitness.remainingTime ≤ engineWitness.totalTime ∧
    ((engineWitness.remainingTime = 0 ∧ engineWitness.totalTime = 0) ↔
      engineWitness.state = TimerState.Idle) ∧
    (isRunning engineWitness = true →
      (tick engineWitness).fst.remainingTime < engineWitness.remainingTime) ∧
    (engineWitness.state = TimerState.Paused →
      tick engineWitness = (engineWitness, [])) ∧
    (engineWitness.state ≠ TimerState.Idle →
      (start engineWitness TimerState.ShortBreak).fst.remainingTime
          = engineWitness.remainingTime ∧
      (start engineWitness TimerState.ShortBreak).fst.totalTime
          = engineWitness.totalTime) ∧
    (resume (pause engineWitness).fst).fst.remainingTime
        = engineWitness.remainingTime :=
  timer_invariants engineWitness TimerState.ShortBreak
    (Reachable.ofStart (initTimer DEFAULT_SETTINGS) TimerState.Work
      (Reachable.ofInit DEFAULT_SETTINGS
        ⟨by decide, by decide, by decide, by decide⟩))

/-- advanceToNextMode does not touch the wrapped timer. -/
theorem advance_timer (p : PluginState) :
    (advanceToNextMode p).timer = p.timer := by
  unfold advanceToNextMode
  split <;> rfl

/-- The plugin-level interval firing is the identity when no interval is
registered. -/
theorem pluginTick_noInterval (q : PluginState)
    (h : q.timer.intervalId = false) : pluginTick q = q := by
  simp [pluginTick, h]

/-- Iterated firings are the identity when no interval is registered. -/
theorem iterTick_noInterval (k : Nat) (q : PluginState)
    (h : q.timer.intervalId = false) : iterTick k q = q := by
  induction k with
  | zero => rfl
  | succ n ih =>
      simp only [iterTick]
      rw [pluginTick_noInterval q h]
      exact ih

/-- A completing plugin-level firing clears the interval and appends
exactly one Session record carrying the running mode and the totalTime
fixed at the start of the interval. -/
theorem pluginTick_complete_sessions (q : PluginState)
    (hI : q.timer.intervalId = true) (hc : q.timer.remainingTime - 1 ≤ 0) :
    (pluginTick q).timer.intervalId = false ∧
    (pluginTick q).timer.settings.sessions =
      q.timer.settings.sessions ++
        [{ type := q.timer.state, duration := q.timer.totalTime }] := by
  constructor <;>
    simp [pluginTick, hI, hc, recordSession, advance_timer, stop]

/-- A non-completing plugin-level firing only decrements the countdown. -/
theorem pluginTick_dec_eq (q : PluginState)
    (hI : q.timer.intervalId = true)
    (hc : ¬ (q.timer.remainingTime - 1 ≤ 0)) :
    pluginTick q =
      { q with timer := { q.timer with remainingTime := q.timer.remainingTime - 1 } } := by
  simp [pluginTick, hI, hc]

/-- Sessions recorded along k plugin-level firings of a live countdown:
none before remainingTime reaches 0, and exactly one, carrying the running
mode and the interval totalTime, as soon as it does. -/
theorem iterTick_sessions (k : Nat) : ∀ (q : PluginState),
    q.timer.intervalId = true → 0 < q.timer.remainingTime →
    (iterTick k q).timer.settings.sessions =
      if q.timer.remainingTime ≤ (k : Int) then
        q.timer.settings.sessions ++
          [{ type := q.timer.state, duration := q.timer.totalTime }]
      else q.timer.settings.sessions := by
  induction k with
  | zero =>
      intro q hI hr
      rw [if_neg (by push_cast; omega)]
      rfl
  | succ n ih =>
      intro q hI hr
      simp only [iterTick]
      by_cases hc : q.timer.remainingTime - 1 ≤ 0
      · obtain ⟨h1, h2⟩ := pluginTick_complete_sessions q hI hc
        rw [iterTick_noInterval n (pluginTick q) h1, h2,
          if_pos (by push_cast; omega)]
      · rw [pluginTick_dec_eq q hI hc]
        have hx := ih ({ q with timer := { q.timer with remainingTime := q.timer.remainingTime - 1 } } : PluginState) hI
          (by show (0 : Int) < q.timer.remainingTime - 1; omega)
        dsimp only at hx
        rw [hx]
        exact if_congr (by push_cast; omega) rfl rfl

/-- C1: with the spec-modelled recorder (recordSession above; the current
main module holding it is absent from src/), starting a fresh interval in
mode m and letting the countdown run appends no Session record while
remainingTime is still positive and exactly one Session record, with
duration equal to the totalSeconds fixed at the start of the interval, as
soon as the countdown reaches 0 naturally; and no Session record is ever
created for an interval ended by reset or stop before remainingTime
reaches 0, both commands clearing the interval so that no later firing can
record anything. -/
theorem session_record_iff_natural_completion
    (p q r : PluginState) (m : TimerState) (k kr ks : Nat)
    (hm : isMode m) (hI : p.timer.intervalId = false)
    (h0 : p.timer.remainingTime = 0)
    (hd : 0 < durationFor p.timer.settings m) :
    ((iterTick k (pluginStart p m)).timer.settings.sessions =
      if durationFor p.timer.settings m * 60 ≤ (k : Int) then
        p.timer.settings.sessions ++
          [{ type := m, duration := durationFor p.timer.settings m * 60 }]
      else p.timer.settings.sessions) ∧
    (iterTick kr (handleResetClick q)).timer.settings.sessions =
      q.timer.settings.sessions ∧
    (iterTick ks (pluginStop r)).timer.settings.sessions =
      r.timer.settings.sessions := by
  refine ⟨?_, ?_, ?_⟩
  · have hm2 : ¬ (m = TimerState.Idle ∨ m = TimerState.Paused) := by
      rcases hm with rfl | rfl | rfl <;> simp
    have hq : pluginStart p m = { p with timer := ({ p.timer with state := m, remainingTime := durationFor p.timer.settings m * 60, totalTime := durationFor p.timer.settings m * 60, intervalId := true } : PomoTimer) } := by
      unfold pluginStart
      rw [start_reset_eq p.timer m hm2 h0]
    have hx := iterTick_sessions k
      ({ p with timer := ({ p.timer with state := m, remainingTime := durationFor p.timer.settings m * 60, totalTime := durationFor p.timer.settings m * 60, intervalId := true } : PomoTimer) } : PluginState)
      rfl (by show (0 : Int) < durationFor p.timer.settings m * 60; omega)
    rw [hq]
    exact hx
  · rw [iterTick_noInterval kr (handleResetClick q) rfl]
    rfl
  · rw [iterTick_noInterval ks (pluginStop r) rfl]
    rfl

/-- C1 witness: a one-minute Work interval run for 60 seconds from the
fresh plugin records exactly the single Session (Work, 60); reset and stop
record nothing across further firings. -/
theorem session_record_iff_natural_completion_witness :
    ((iterTick 60 (pluginStart (initPlugin settingsW1) TimerState.Work)).timer.settings.sessions =
      if durationFor (initPlugin settingsW1).timer.settings TimerState.Work * 60 ≤ ((60 : Nat) : Int) then
        (initPlugin settingsW1).timer.settings.sessions ++
          [{ type := TimerState.Work, duration := durationFor (initPlugin settingsW1).timer.settings TimerState.Work * 60 }]
      else (initPlugin settingsW1).timer.settings.sessions) ∧
    (iterTick 3 (handleResetClick (initPlugin settingsW1))).timer.settings.sessions =
      (initPlugin settingsW1).timer.settings.sessions ∧
    (iterTick 3 (pluginStop (initPlugin settingsW1))).timer.settings.sessions =
      (initPlugin settingsW1).timer.settings.sessions :=
  session_record_iff_natural_completion (initPlugin settingsW1)
    (initPlugin settingsW1) (initPlugin settingsW1) TimerState.Work 60 3 3
    (Or.inl rfl) rfl rfl (by decide)

end Pomodian
